import Mathlib

/-!
Verification development for the harmony job orchestrator core.

The definitions below are shallow embeddings of the TypeScript sources:
  - services/harmony/app/models/job.ts (Job entity, state machine, mutators, save)
  - app/models/user-work.ts (fairness queue queries)
  - app/workers/work-reaper.ts (reaper loop body)
  - app/frontends/cloud-access.js (querySource page loop)
Database tables are modelled as lists of row structures; SQL queries as list
operations; thrown JavaScript exceptions as `Except`; JS numbers as `Int`/`Rat`.
-/

namespace Harmony

/-- JobStatus enum from job.ts. -/
inductive JobStatus where
  | accepted
  | running
  | running_with_errors
  | successful
  | failed
  | canceled
  | paused
  | previewing
  | complete_with_errors
deriving DecidableEq, Repr, Fintype

/-- JobEvent enum from job.ts. -/
inductive JobEvent where
  | CANCEL
  | COMPLETE
  | COMPLETE_WITH_ERRORS
  | FAIL
  | PAUSE
  | RESUME
  | SKIP_PREVIEW
  | START
  | START_WITH_PREVIEW
deriving DecidableEq, Repr, Fintype

/-- The string value of each JobStatus enum member. -/
def JobStatus.str : JobStatus → String
  | .accepted => "accepted"
  | .running => "running"
  | .running_with_errors => "running_with_errors"
  | .successful => "successful"
  | .failed => "failed"
  | .canceled => "canceled"
  | .paused => "paused"
  | .previewing => "previewing"
  | .complete_with_errors => "complete_with_errors"

/-- The `on:` table of the xstate machine declared in job.ts: for each state,
the event-to-target transitions it declares (none for states without an `on:`
entry or events absent from that entry). -/
def stateMachineOn : JobStatus → JobEvent → Option JobStatus
  | .accepted, .START => some .running
  | .accepted, .START_WITH_PREVIEW => some .previewing
  | .running, .COMPLETE => some .successful
  | .running, .COMPLETE_WITH_ERRORS => some .complete_with_errors
  | .running, .CANCEL => some .canceled
  | .running, .FAIL => some .failed
  | .running, .PAUSE => some .paused
  | .running_with_errors, .COMPLETE => some .successful
  | .running_with_errors, .COMPLETE_WITH_ERRORS => some .complete_with_errors
  | .running_with_errors, .CANCEL => some .canceled
  | .running_with_errors, .FAIL => some .failed
  | .running_with_errors, .PAUSE => some .paused
  | .failed, .FAIL => some .failed
  | .previewing, .SKIP_PREVIEW => some .running
  | .previewing, .CANCEL => some .canceled
  | .previewing, .FAIL => some .failed
  | .previewing, .PAUSE => some .paused
  | .paused, .SKIP_PREVIEW => some .running
  | .paused, .RESUME => some .running
  | .paused, .CANCEL => some .canceled
  | .paused, .FAIL => some .failed
  | _, _ => none

/-- Whether a state is declared with a final state type in the machine. -/
def isFinalStateType : JobStatus → Bool
  | .successful => true
  | .complete_with_errors => true
  | .failed => true
  | .canceled => true
  | _ => false

/-- The states of the machine in declaration order (the order of the `states:`
object in job.ts), matching `Object.keys(stateMachine.states)`. -/
def machineStatesInOrder : List JobStatus :=
  [.accepted, .running, .running_with_errors, .successful, .complete_with_errors,
   .failed, .canceled, .previewing, .paused]

/-- Embedding of `terminalStates` from job.ts: the machine states with a final state type. -/
def terminalStates : List JobStatus :=
  machineStatesInOrder.filter isFinalStateType

/-- Embedding of `canTransition(currentStatus, desiredStatus, event)` from job.ts.

The source computes `const state = stateMachine.transition(currentStatus, event)`
and returns `state.changed && state.matches(desiredStatus)`.  Under xstate v4
(the library the source pins):
  - if the current state declares no transition for the event, the resulting
    state keeps the current value and `state.changed` is `false`
    (`strict: true` only rejects events unknown to the whole machine, and all
    nine JobEvents appear somewhere in it);
  - if a transition to `target` is taken, the value of the resulting state is
    `target`, and `state.changed` is `true` iff the step produced any actions,
    updated the machine context, or changed the state value.  This machine
    declares no actions and no context, so `state.changed` reduces to
    `target ≠ currentStatus`;
  - `state.matches(desiredStatus)` is `target = desiredStatus`. -/
def canTransition (currentStatus desiredStatus : JobStatus) (event : JobEvent) : Bool :=
  match stateMachineOn currentStatus event with
  | some target => decide (target ≠ currentStatus) && decide (target = desiredStatus)
  | none => false

/-- ConflictError from util/errors, carrying its message. -/
structure ConflictError where
  message : String
deriving DecidableEq, Repr

/-- The default `errorMessage` parameter of `validateTransition` in job.ts. -/
def defaultTransitionErrorMessage (currentStatus desiredStatus : JobStatus) : String :=
  "Job status cannot be updated from " ++ currentStatus.str ++ " to " ++ desiredStatus.str ++ "."

/-- Embedding of `validateTransition(currentStatus, desiredStatus, event, errorMessage)` from
job.ts: throws ConflictError with the given message when `canTransition` is
false. -/
def validateTransition (currentStatus desiredStatus : JobStatus) (event : JobEvent)
    (errorMessage : String) : Except ConflictError Unit :=
  if canTransition currentStatus desiredStatus event then Except.ok ()
  else Except.error ⟨errorMessage⟩

/-- Embedding of `statesToDefaultMessages` from job.ts (the `meta.defaultMessage` of each state). -/
def statesToDefaultMessages : JobStatus → String
  | .accepted => "The job has been accepted and is waiting to be processed"
  | .running => "The job is being processed"
  | .running_with_errors => "The job is being processed, but some items have failed processing"
  | .successful => "The job has completed successfully"
  | .complete_with_errors => "The job has completed with errors. See the errors field for more details"
  | .failed => "The job failed with an unknown error"
  | .canceled => "The job was canceled"
  | .previewing => "The job is generating a preview before auto-pausing"
  | .paused => "The job is paused and may be resumed using the provided link"

/-- Statement that `message` contains another string as a substring (used to say that
an error message names a status).  Stated on the underlying character lists. -/
def namesStatus (message : String) (status : JobStatus) : Prop :=
  status.str.data <:+: message.data

instance (message : String) (status : JobStatus) : Decidable (namesStatus message status) :=
  List.decidableInfix _ _

/-- The in-memory Job entity from job.ts, restricted to the fields the claims
are about.  `statesToMessages` is the status-keyed message map (the private
`statesToMessages` field); `originalStatus` is `undefined` (none) for records
that did not come from the database. -/
structure Job where
  jobID : String
  status : JobStatus
  originalStatus : Option JobStatus
  progress : Int
  statesToMessages : JobStatus → Option String
  request : String

/-- Embedding of `Job#getMessage(status)` from job.ts: the stored message for the
status, falling back (JS `||`, so also on an empty string) to the default of the state. -/
def Job.getMessage (j : Job) (status : JobStatus) : String :=
  match j.statesToMessages status with
  | some m => if m = "" then statesToDefaultMessages status else m
  | none => statesToDefaultMessages status

/-- Embedding of `Job#setMessage(message, status)` from job.ts: does nothing for a falsy
(empty) message, otherwise stores the message under the status key. -/
def Job.setMessage (j : Job) (message : String) (status : JobStatus) : Job :=
  if message = "" then j
  else { j with statesToMessages := fun s => if s = status then some message else j.statesToMessages s }

/-- Embedding of `Job#updateStatus(status, message)` from job.ts: sets the status, stores a
truthy message under the (new) status key, and forces `progress = 100` when the
new status is successful or complete_with_errors. -/
def Job.updateStatus (j : Job) (status : JobStatus) (message : Option String) : Job :=
  let j1 : Job := { j with status := status }
  let j2 : Job :=
    match message with
    | some m => if m = "" then j1 else j1.setMessage m status
    | none => j1
  if status = JobStatus.successful ∨ status = JobStatus.complete_with_errors then
    { j2 with progress := 100 }
  else j2

/-- Embedding of `Job#pause()` from job.ts. -/
def Job.pause (j : Job) : Except ConflictError Job := do
  let _ ← validateTransition j.status .paused .PAUSE (defaultTransitionErrorMessage j.status .paused)
  Except.ok (j.updateStatus .paused (some (j.getMessage .paused)))

/-- Embedding of `Job#resume()` from job.ts; note the custom error message. -/
def Job.resume (j : Job) : Except ConflictError Job := do
  let _ ← validateTransition j.status .running .RESUME
    ("Job status is " ++ j.status.str ++ " - only paused jobs can be resumed.")
  Except.ok (j.updateStatus .running (some (j.getMessage .running)))

/-- Embedding of `Job#skipPreview()` from job.ts; note the custom error message. -/
def Job.skipPreview (j : Job) : Except ConflictError Job := do
  let _ ← validateTransition j.status .running .SKIP_PREVIEW
    ("Job status is " ++ j.status.str ++ " - only previewing jobs can skip preview.")
  Except.ok (j.updateStatus .running (some (j.getMessage .running)))

/-- Embedding of `Job#fail(message = statesToDefaultMessages.failed)` from job.ts. -/
def Job.fail (j : Job) (message : Option String) : Except ConflictError Job := do
  let msg := message.getD (statesToDefaultMessages .failed)
  let _ ← validateTransition j.status .failed .FAIL (defaultTransitionErrorMessage j.status .failed)
  Except.ok (j.updateStatus .failed (some msg))

/-- Embedding of `Job#cancel(message = statesToDefaultMessages.canceled)` from job.ts. -/
def Job.cancel (j : Job) (message : Option String) : Except ConflictError Job := do
  let msg := message.getD (statesToDefaultMessages .canceled)
  let _ ← validateTransition j.status .canceled .CANCEL (defaultTransitionErrorMessage j.status .canceled)
  Except.ok (j.updateStatus .canceled (some msg))

/-- Embedding of `Job#succeed(message?)` from job.ts. -/
def Job.succeed (j : Job) (message : Option String) : Except ConflictError Job := do
  let _ ← validateTransition j.status .successful .COMPLETE
    (defaultTransitionErrorMessage j.status .successful)
  Except.ok (j.updateStatus .successful message)

/-- Embedding of `Job#complete_with_errors(message?)` from job.ts. -/
def Job.complete_with_errors (j : Job) (message : Option String) : Except ConflictError Job := do
  let _ ← validateTransition j.status .complete_with_errors .COMPLETE_WITH_ERRORS
    (defaultTransitionErrorMessage j.status .complete_with_errors)
  Except.ok (j.updateStatus .complete_with_errors message)

/-- Embedding of `Job#validateStatus()` from job.ts: throws when the status at load time is
terminal (a JobRecord not from the database has no `originalStatus` and passes). -/
def Job.validateStatus (j : Job) : Except ConflictError Unit :=
  match j.originalStatus with
  | some s =>
      if terminalStates.contains s then
        Except.error ⟨defaultTransitionErrorMessage s j.status⟩
      else Except.ok ()
  | none => Except.ok ()

/-- Embedding of `TEXT_LIMIT` from job.ts. -/
def TEXT_LIMIT : Nat := 4096

/-- Modelled from the spec: `truncateString` comes from `@harmony/util/string`,
which is not among the sources; the spec says the request URL and the failure
message are "truncated to 4,096 characters on save" (resp. to 4,096 − 1,000). -/
def truncateString (s : String) (n : Nat) : String :=
  s.take n

/-- The jobs table, modelled as the list of records written by `save`. -/
structure JobsDb where
  records : List Job

/-- Embedding of `Job#save(tx)` from job.ts: enforce the terminal write barrier via
`validateStatus`, truncate the failure message and the request, then write the
record.  A thrown ConflictError aborts before anything is written. -/
def Job.save (j : Job) (db : JobsDb) : Except ConflictError (Job × JobsDb) := do
  let _ ← j.validateStatus
  let truncatedFailureMessage := truncateString (j.getMessage .failed) (TEXT_LIMIT - 1000)
  let j1 := j.setMessage truncatedFailureMessage .failed
  let j2 : Job := { j1 with request := truncateString j1.request TEXT_LIMIT }
  Except.ok (j2, ⟨db.records ++ [j2]⟩)

/-- A row of the `user_work` table (user-work.ts). -/
structure UserWorkRow where
  job_id : String
  service_id : String
  username : String
  ready_count : Int
  running_count : Int
  last_worked : Int
deriving DecidableEq, Repr

/-- Embedding of `setReadyCountToZero(tx, jobID)` from user-work.ts: sets `ready_count` to 0
on every row of the job. -/
def setReadyCountToZero (rows : List UserWorkRow) (jobID : String) : List UserWorkRow :=
  rows.map fun r => if r.job_id = jobID then { r with ready_count := 0 } else r

/-- Embedding of `Job#pauseAndSave(tx)` from job.ts: validate the PAUSE transition,
update the status, save the job, then zero the user_work ready counts of the job. -/
def Job.pauseAndSave (j : Job) (db : JobsDb) (userWork : List UserWorkRow) :
    Except ConflictError (Job × JobsDb × List UserWorkRow) := do
  let _ ← validateTransition j.status .paused .PAUSE (defaultTransitionErrorMessage j.status .paused)
  let j1 := j.updateStatus .paused (some (j.getMessage .paused))
  let (j2, db2) ← j1.save db
  Except.ok (j2, db2, setReadyCountToZero userWork j.jobID)

/-- The per-step data `Job#updateProgress` reads: `progress_weight` together
with the step progress computed by `WorkflowStep#updateProgress`. -/
structure WorkflowStepData where
  progress_weight : ℚ
  progress : ℚ
deriving DecidableEq, Repr

/-- Embedding of `Job#updateProgress(tx)` from job.ts, applied to the step data of the job:
`sumOfWeights` falls back to 1 only when the reduced sum is not positive,
`progSum` is clamped below at 0, the candidate is `min(floor(progSum /
sumOfWeights), 99)`, and progress is only ever raised. -/
def Job.updateProgress (j : Job) (steps : List WorkflowStepData) : Job :=
  let sumOfWeights0 : ℚ := steps.foldl (fun sum step => sum + step.progress_weight) 0
  let sumOfWeights : ℚ := if sumOfWeights0 > 0 then sumOfWeights0 else 1
  let progSum0 : ℚ := steps.foldl (fun sum step => sum + step.progress_weight * step.progress) 0
  let progSum : ℚ := max 0 progSum0
  let progress : Int := min ⌊progSum / sumOfWeights⌋ 99
  if j.progress < progress then { j with progress := progress } else j

/-- The candidate value claimed in the spec (§4.4): `floor(weighted / total)`
with `total = max(1, sum(weight_i))`, clamped to the range [0, 99]. -/
def specClaimCandidate (steps : List WorkflowStepData) : Int :=
  let weighted : ℚ := (steps.map fun step => step.progress_weight * step.progress).sum
  let total : ℚ := max 1 (steps.map (fun step => step.progress_weight)).sum
  min (max 0 ⌊weighted / total⌋) 99

/-- The candidate value the code actually computes (see `Job.updateProgress`). -/
def codeCandidate (steps : List WorkflowStepData) : Int :=
  let sumOfWeights0 : ℚ := steps.foldl (fun sum step => sum + step.progress_weight) 0
  let sumOfWeights : ℚ := if sumOfWeights0 > 0 then sumOfWeights0 else 1
  let progSum : ℚ := max 0 (steps.foldl (fun sum step => sum + step.progress_weight * step.progress) 0)
  min ⌊progSum / sumOfWeights⌋ 99

/-- The seven public status mutators of Job. -/
inductive Mutator where
  | pause
  | resume
  | skipPreview
  | fail (message : Option String)
  | cancel (message : Option String)
  | succeed (message : Option String)
  | complete_with_errors (message : Option String)

/-- Apply a public mutator to a job. -/
def applyMutator : Mutator → Job → Except ConflictError Job
  | .pause, j => j.pause
  | .resume, j => j.resume
  | .skipPreview, j => j.skipPreview
  | .fail m, j => j.fail m
  | .cancel m, j => j.cancel m
  | .succeed m, j => j.succeed m
  | .complete_with_errors m, j => j.complete_with_errors m

/-- The JobEvent each mutator feeds to `validateTransition`. -/
def Mutator.event : Mutator → JobEvent
  | .pause => .PAUSE
  | .resume => .RESUME
  | .skipPreview => .SKIP_PREVIEW
  | .fail _ => .FAIL
  | .cancel _ => .CANCEL
  | .succeed _ => .COMPLETE
  | .complete_with_errors _ => .COMPLETE_WITH_ERRORS

/-- The desired status each mutator passes to `validateTransition`. -/
def Mutator.desired : Mutator → JobStatus
  | .pause => .paused
  | .resume => .running
  | .skipPreview => .running
  | .fail _ => .failed
  | .cancel _ => .canceled
  | .succeed _ => .successful
  | .complete_with_errors _ => .complete_with_errors

/-- Whether the mutator lets `validateTransition` use its default error message
(resume and skipPreview override it). -/
def Mutator.usesDefaultMessage : Mutator → Bool
  | .resume => false
  | .skipPreview => false
  | _ => true

/-- The ConflictError message a mutator throws when invoked at `current`. -/
def Mutator.thrownMessage (m : Mutator) (current : JobStatus) : String :=
  match m with
  | .resume => "Job status is " ++ current.str ++ " - only paused jobs can be resumed."
  | .skipPreview => "Job status is " ++ current.str ++ " - only previewing jobs can skip preview."
  | _ => defaultTransitionErrorMessage current m.desired

/-- Run a mutator the way a caller that catches the ConflictError observes it:
on a throw the job object is unchanged. -/
def attemptMutator (m : Mutator) (j : Job) : Job :=
  match applyMutator m j with
  | .ok j' => j'
  | .error _ => j

/-- One call in a sequence of public mutator / updateProgress calls. -/
inductive JobOp where
  | mutate (m : Mutator)
  | updateProgress (steps : List WorkflowStepData)

/-- Run one call of a sequence (thrown ConflictErrors leave the job unchanged). -/
def runOp (j : Job) : JobOp → Job
  | .mutate m => attemptMutator m j
  | .updateProgress steps => j.updateProgress steps

/-- Run a sequence of calls. -/
def runOps (j : Job) (ops : List JobOp) : Job :=
  ops.foldl runOp j

/-- Strict lexicographic comparison on (sum of running_count, max last_worked)
keys: this is `ORDER BY rc asc, lw asc` preferring the first component. -/
def lexLt (a b : Int × Int) : Bool :=
  decide (a.1 < b.1) || (decide (a.1 = b.1) && decide (a.2 < b.2))

/-- A user_work row matched by the subquery of `getNextUsernameForWork`:
`service_id = serviceID AND ready_count > 0`. -/
def userQualifiesForService (serviceID : String) (r : UserWorkRow) : Bool :=
  decide (r.service_id = serviceID) && decide (r.ready_count > 0)

/-- The subquery of `getNextUsernameForWork` (user-work.ts): the distinct
usernames having a row for the service with a positive ready count. -/
def subqueryUsernames (rows : List UserWorkRow) (serviceID : String) : List String :=
  ((rows.filter (userQualifiesForService serviceID)).map (fun r => r.username)).dedup

/-- All user_work rows of a username (the outer query of
`getNextUsernameForWork` groups every row of the table by username, with no
service filter). -/
def userRows (rows : List UserWorkRow) (u : String) : List UserWorkRow :=
  rows.filter fun r => decide (r.username = u)

/-- The `SUM(running_count)` aggregate of the group of one username. -/
def sumRunningCount (rows : List UserWorkRow) (u : String) : Int :=
  ((userRows rows u).map (fun r => r.running_count)).sum

/-- The `MAX(last_worked)` aggregate of the group of one username (every grouped
username has at least one row, so the default for an empty group is never relevant). -/
def maxLastWorked (rows : List UserWorkRow) (u : String) : Int :=
  (((userRows rows u).map (fun r => r.last_worked)).max?).getD 0

/-- The `(rc, lw)` aggregate of the outer query of `getNextUsernameForWork`. -/
def userWorkKey (rows : List UserWorkRow) (u : String) : Int × Int :=
  (sumRunningCount rows u, maxLastWorked rows u)

/-- Embedding of `ORDER BY key ascending LIMIT 1` over a candidate list: a
candidate with a lexicographically minimal key, preferring the earlier of two
tied candidates (SQL leaves the order of exact ties unspecified; the model
resolves them by list position). -/
def selectFirstMinimal (cands : List String) (key : String → Int × Int) : Option String :=
  match cands with
  | [] => none
  | c :: t =>
      match selectFirstMinimal t key with
      | none => some c
      | some b => if lexLt (key b) (key c) then some b else some c

/-- Embedding of `getNextUsernameForWork(tx, serviceID)` from user-work.ts: among usernames
with a ready row for the service, pick one minimizing `SUM(running_count)`,
breaking ties by the older `MAX(last_worked)`; `results?.username` yields
undefined (none) when no row qualifies. -/
def getNextUsernameForWork (rows : List UserWorkRow) (serviceID : String) : Option String :=
  selectFirstMinimal (subqueryUsernames rows serviceID) (userWorkKey rows)

/-- Embedding of `ORDER BY last_worked asc LIMIT 1` over rows. -/
def selectFirstByLastWorked (rows : List UserWorkRow) : Option UserWorkRow :=
  rows.foldl
    (fun best r =>
      match best with
      | none => some r
      | some b => if r.last_worked < b.last_worked then some r else some b)
    none

/-- Embedding of `getNextJobIdForUsernameAndService(tx, serviceID, username)` from
user-work.ts: unlike `getNextUsernameForWork`, it reads `results.job_id`
without optional chaining, so an empty result set raises a TypeError, modelled
as the error case. -/
def getNextJobIdForUsernameAndService (rows : List UserWorkRow) (serviceID username : String) :
    Except String String :=
  let matching := rows.filter fun r =>
    decide (r.username = username) && decide (r.service_id = serviceID) && decide (r.ready_count > 0)
  match selectFirstByLastWorked matching with
  | some r => Except.ok r.job_id
  | none => Except.error "TypeError: cannot read job_id of undefined"

/-- A jobs-table record as the selection queries of the reaper see it:
`minutesSinceUpdate` is the age of `updatedAt` in minutes at query time. -/
structure ReaperJobRecord where
  jobID : String
  status : JobStatus
  minutesSinceUpdate : Int
deriving DecidableEq, Repr

/-- A work_items row (only the columns the reaper touches). -/
structure WorkItemRecord where
  id : Int
  jobID : String
deriving DecidableEq, Repr

/-- A workflow_steps row (only the columns the reaper touches). -/
structure WorkflowStepRecord where
  id : Int
  jobID : String
deriving DecidableEq, Repr

/-- The tables the reaper reads and deletes from. -/
structure ReaperDb where
  jobs : List ReaperJobRecord
  workItems : List WorkItemRecord
  workflowSteps : List WorkflowStepRecord
deriving DecidableEq, Repr

/-- Modelled from the spec: the selection predicate shared by
`getWorkItemIdsByJobUpdateAgeAndStatus` (app/models/work-item.ts) and
`getWorkflowStepIdsByJobUpdateAgeAndStatus` (app/models/workflow-steps.ts),
neither of which is among the sources; §4.5 of the spec says they select
identifiers "whose parent Job is in one of {failed, successful, canceled} and
whose Job updatedAt is older than the threshold" (the status list being the
`jobStatus` argument). -/
def jobIsReapable (db : ReaperDb) (notUpdatedForMinutes : Int) (jobStatus : List JobStatus)
    (jobID : String) : Bool :=
  db.jobs.any fun job =>
    decide (job.jobID = jobID) && jobStatus.contains job.status &&
      decide (job.minutesSinceUpdate > notUpdatedForMinutes)

/-- Modelled from the spec: `getWorkItemIdsByJobUpdateAgeAndStatus` (work-item.ts,
not among the sources), per §4.5. -/
def getWorkItemIdsByJobUpdateAgeAndStatus (db : ReaperDb) (notUpdatedForMinutes : Int)
    (jobStatus : List JobStatus) : List Int :=
  (db.workItems.filter fun i => jobIsReapable db notUpdatedForMinutes jobStatus i.jobID).map
    (fun i => i.id)

/-- Modelled from the spec: `getWorkflowStepIdsByJobUpdateAgeAndStatus`
(workflow-steps.ts, not among the sources), per §4.5. -/
def getWorkflowStepIdsByJobUpdateAgeAndStatus (db : ReaperDb) (notUpdatedForMinutes : Int)
    (jobStatus : List JobStatus) : List Int :=
  (db.workflowSteps.filter fun s => jobIsReapable db notUpdatedForMinutes jobStatus s.jobID).map
    (fun s => s.id)

/-- Modelled from the spec: `deleteWorkItemsById` (work-item.ts, not among the
sources) deletes the rows with the given ids and returns the count deleted. -/
def deleteWorkItemsById (db : ReaperDb) (ids : List Int) : ReaperDb × Nat :=
  let remaining := db.workItems.filter fun i => !(ids.contains i.id)
  ({ db with workItems := remaining }, db.workItems.length - remaining.length)

/-- Modelled from the spec: `deleteWorkflowStepsById` (workflow-steps.ts, not
among the sources) deletes the rows with the given ids and returns the count. -/
def deleteWorkflowStepsById (db : ReaperDb) (ids : List Int) : ReaperDb × Nat :=
  let remaining := db.workflowSteps.filter fun s => !(ids.contains s.id)
  ({ db with workflowSteps := remaining }, db.workflowSteps.length - remaining.length)

/-- The status list `WorkReaper#start` passes to `deleteTerminalWork` on every
tick (work-reaper.ts). -/
def workReaperTickStatuses : List JobStatus :=
  [.failed, .successful, .canceled]

/-- The first half of the `try` block of `WorkReaper#deleteTerminalWork`:
query the reapable work-item ids and, when any exist, delete them, logging
either the count removed or that none were found.  `fault` injects a storage
fault by call number (1 = the work-item delete); the error component carries a
raised error, the database and logs reached are returned alongside. -/
def reapItemsStage (db : ReaperDb) (notUpdatedForMinutes : Int) (jobStatus : List JobStatus)
    (fault : Nat) : ReaperDb × List String × Option String :=
  let workItemIds := getWorkItemIdsByJobUpdateAgeAndStatus db notUpdatedForMinutes jobStatus
  if workItemIds.isEmpty then
    (db, ["Work reaper did not find any work items to delete"], none)
  else if fault = 1 then (db, [], some "storage error")
  else
    let (db1, numItemsDeleted) := deleteWorkItemsById db workItemIds
    (db1, ["Work reaper removed " ++ toString numItemsDeleted ++ " work items"], none)

/-- The second half of the `try` block of `WorkReaper#deleteTerminalWork`:
the same for workflow steps (faults 2 = the step id query, 3 = the step
delete). -/
def reapStepsStage (db : ReaperDb) (notUpdatedForMinutes : Int) (jobStatus : List JobStatus)
    (fault : Nat) : ReaperDb × List String × Option String :=
  if fault = 2 then (db, [], some "storage error") else
  let workStepIds := getWorkflowStepIdsByJobUpdateAgeAndStatus db notUpdatedForMinutes jobStatus
  if workStepIds.isEmpty then
    (db, ["Work reaper did not find any workflow steps to delete"], none)
  else if fault = 3 then (db, [], some "storage error")
  else
    let (db2, numStepsDeleted) := deleteWorkflowStepsById db workStepIds
    (db2, ["Work reaper removed " ++ toString numStepsDeleted ++ " workflow steps"], none)

/-- The body of `WorkReaper#deleteTerminalWork` (the content of its `try`
block), with a storage fault injected at one of its four database calls
(`fault` 0 = the work-item id query, 1 = the work-item delete, 2 = the
workflow-step id query, 3 = the workflow-step delete; any other value injects
no fault).  A raised error aborts the remaining calls, exactly where the `try`
block would rethrow. -/
def deleteTerminalWorkAttempt (db : ReaperDb) (notUpdatedForMinutes : Int)
    (jobStatus : List JobStatus) (fault : Nat) : ReaperDb × List String × Option String :=
  if fault = 0 then (db, [], some "storage error") else
  match reapItemsStage db notUpdatedForMinutes jobStatus fault with
  | (db1, logs1, some e) => (db1, logs1, some e)
  | (db1, logs1, none) =>
      match reapStepsStage db1 notUpdatedForMinutes jobStatus fault with
      | (db2, logs2, e2) => (db2, logs1 ++ logs2, e2)

/-- Embedding of `WorkReaper#deleteTerminalWork` (work-reaper.ts): the body runs inside
`try { ... } catch (e) { log; log(e); }`, so a raised error is converted into
two log lines and the method returns normally in every case. -/
def deleteTerminalWork (db : ReaperDb) (notUpdatedForMinutes : Int)
    (jobStatus : List JobStatus) (fault : Nat) : ReaperDb × List String :=
  match deleteTerminalWorkAttempt db notUpdatedForMinutes jobStatus fault with
  | (db1, logs, none) => (db1, logs)
  | (db1, logs, some e) =>
      (db1, logs ++ ["Error attempting to delete terminal work items", e])

/-- The loop state of `querySource` (the CMR granule-query source file):
`page`, `done`, and the number of granule-page queries issued so far. -/
structure QuerySourceLoopState where
  page : Int
  done : Bool
  queryCount : Nat
deriving DecidableEq, Repr

/-- One iteration of the `while (!done)` body of `querySource`: issue one
granule-page query, then `done = ++page < maxPages || true`. -/
def querySourceIteration (maxPages : Int) (s : QuerySourceLoopState) : QuerySourceLoopState :=
  { page := s.page + 1,
    done := decide (s.page + 1 < maxPages) || true,
    queryCount := s.queryCount + 1 }

/-- The `while (!done)` loop of `querySource`, allowed at most `fuel`
iterations (the loop in fact always terminates after one). -/
def querySourceLoop (maxPages : Int) : Nat → QuerySourceLoopState → QuerySourceLoopState
  | 0, s => s
  | fuel + 1, s =>
      if s.done then s else querySourceLoop maxPages fuel (querySourceIteration maxPages s)

/-- The loop state of `querySource` on entry: `page = 0`, `done = false`. -/
def querySourceInit : QuerySourceLoopState :=
  { page := 0, done := false, queryCount := 0 }

/-- The number of granule-page queries `querySource` issues, for a given
`maxPages` and iteration budget. -/
def querySourceQueryCount (maxPages : Int) (fuel : Nat) : Nat :=
  (querySourceLoop maxPages fuel querySourceInit).queryCount

/-- The candidate the code in fact computes, written in the vocabulary of the
amended claim: the total is the reduced weight sum when that sum is positive
and 1 otherwise (not `max(1, sum)`), and the lower clamp of the [0, 99] range
is equivalent to the clamp the code applies to the weighted sum. -/
def amendedClaimCandidate (steps : List WorkflowStepData) : Int :=
  let weighted : ℚ := (steps.map fun step => step.progress_weight * step.progress).sum
  let weightSum : ℚ := (steps.map fun step => step.progress_weight).sum
  let total : ℚ := if weightSum > 0 then weightSum else 1
  min (max 0 ⌊weighted / total⌋) 99

/-- The progress value the C4 claim predicts `updateProgress` leaves on the
job: the claimed candidate when it strictly exceeds the current progress, the
current progress otherwise. -/
def specClaimPredictedProgress (j : Job) (steps : List WorkflowStepData) : Int :=
  if j.progress < specClaimCandidate steps then specClaimCandidate steps else j.progress

/-- An empty status-keyed message map. -/
def emptyMessages : JobStatus → Option String := fun _ => none

/-- An empty jobs table. -/
def jobsDbEmpty : JobsDb := ⟨[]⟩

/-- A fresh accepted job (no database record yet). -/
def jobAccepted : Job :=
  ⟨"job-accepted", .accepted, none, 0, emptyMessages, "http://example.com/a"⟩

/-- A failed job as loaded back from the database. -/
def jobFailedReloaded : Job :=
  ⟨"job-failed", .failed, some .failed, 52, emptyMessages, "http://example.com/f"⟩

/-- A canceled job as loaded back from the database. -/
def jobCanceledReloaded : Job :=
  ⟨"job-canceled", .canceled, some .canceled, 100, emptyMessages, "http://example.com/c"⟩

/-- A running job, loaded from the database, at progress 30. -/
def jobRunning30 : Job :=
  ⟨"job-running", .running, some .running, 30, emptyMessages, "http://example.com/r"⟩

/-- The job the two mutators of the C5 witness run on, after `succeed`. -/
def succeedResultW : Job :=
  match jobRunning30.succeed none with
  | .ok r => r
  | .error _ => jobRunning30

/-- A running job, loaded from the database, at progress 0. -/
def jobPending : Job :=
  ⟨"job-pending", .running, some .running, 0, emptyMessages, "http://example.com/p"⟩

/-- A single workflow step of weight 1/2 at full step progress. -/
def stepHalfWeight : WorkflowStepData := ⟨1/2, 1⟩

/-- Scenario S4: two user_work rows for the same service, equal running load,
userB older (smaller last_worked). -/
def s4Rows : List UserWorkRow :=
  [⟨"jobA", "s", "userA", 1, 5, 2⟩, ⟨"jobB", "s", "userB", 1, 5, 1⟩]

/-- A user_work table for the pauseAndSave witness: two rows of job J1 on two
services, one row of another job J2. -/
def uwRowsW : List UserWorkRow :=
  [⟨"J1", "svc1", "alice", 3, 2, 10⟩, ⟨"J2", "svc1", "bob", 4, 1, 11⟩,
   ⟨"J1", "svc2", "alice", 5, 7, 12⟩]

/-- The running job J1 used by the pauseAndSave witness. -/
def jobRunningW : Job :=
  ⟨"J1", .running, some .running, 10, emptyMessages, "http://example.com/w"⟩

/-- The result triple of the pauseAndSave witness run. -/
def pauseAndSaveResultW : Job × JobsDb × List UserWorkRow :=
  match jobRunningW.pauseAndSave jobsDbEmpty uwRowsW with
  | .ok r => r
  | .error _ => (jobRunningW, jobsDbEmpty, uwRowsW)

/-- A user_work table whose only row has no ready items. -/
def uwNoReady : List UserWorkRow := [⟨"J9", "svc9", "carol", 0, 2, 5⟩]

/-- Scenario S6: a successful job and a running job, both idle for 120 minutes,
each owning one work item and one workflow step. -/
def s6Db : ReaperDb :=
  ⟨[⟨"JS", .successful, 120⟩, ⟨"JR", .running, 120⟩],
   [⟨1, "JS"⟩, ⟨2, "JR"⟩],
   [⟨11, "JS"⟩, ⟨12, "JR"⟩]⟩

/-- Setting a message never touches the progress field. -/
theorem setMessage_progress (j : Job) (m : String) (s : JobStatus) :
    (j.setMessage m s).progress = j.progress := by
  unfold Job.setMessage
  split <;> rfl

/-- Setting a message never touches the status field. -/
theorem setMessage_status (j : Job) (m : String) (s : JobStatus) :
    (j.setMessage m s).status = j.status := by
  unfold Job.setMessage
  split <;> rfl

/-- The progress `updateStatus` leaves on the job: 100 for the two completed
statuses, the previous progress otherwise. -/
theorem updateStatus_progress (j : Job) (s : JobStatus) (msg : Option String) :
    (j.updateStatus s msg).progress =
      if s = JobStatus.successful ∨ s = JobStatus.complete_with_errors then 100
      else j.progress := by
  cases msg with
  | none =>
      simp only [Job.updateStatus]
      split <;> rfl
  | some m =>
      by_cases hm : m = "" <;>
        simp only [Job.updateStatus, hm, if_true, if_false, eq_self_iff_true, ite_true,
          ite_false, setMessage_progress]
      · split <;> rfl
      · split <;> simp [setMessage_progress]

/-- The status `updateStatus` leaves on the job. -/
theorem updateStatus_status (j : Job) (s : JobStatus) (msg : Option String) :
    (j.updateStatus s msg).status = s := by
  cases msg with
  | none => simp only [Job.updateStatus] ; split <;> rfl
  | some m =>
      by_cases hm : m = "" <;> simp only [Job.updateStatus, hm, ite_true, ite_false]
      · split <;> rfl
      · split <;> simp [setMessage_status]

/-- C2: the claim states that `canTransition(current, desired, event)` is true
exactly when the declared transition table of §4.1 sends `current` to `desired`
on `event`, and in particular that `canTransition(failed, failed, FAIL)` is
true.  The machine does declare FAIL → failed in state failed (the source
comments it with "allow retrigger of failure to simplify error handling"), but
`canTransition` evaluates to false there, because xstate reports a
self-transition that produces no actions as unchanged, so `state.changed` is
false.  This theorem evaluates the code at the failing input and shows the
divergence is confined to that single cell: everywhere else `canTransition`
agrees with the declared table. -/
theorem canTransition_failed_refail_eval :
    stateMachineOn .failed .FAIL = some .failed ∧
    canTransition .failed .failed .FAIL = false ∧
    validateTransition .failed .failed .FAIL (defaultTransitionErrorMessage .failed .failed) =
      Except.error ⟨"Job status cannot be updated from failed to failed."⟩ ∧
    (∀ c d : JobStatus, ∀ e : JobEvent, (c = JobStatus.failed ∧ e = JobEvent.FAIL) ∨
      (canTransition c d e = true ↔ stateMachineOn c e = some d)) := by
  refine ⟨rfl, rfl, rfl, ?_⟩
  decide

/-- Once the loop flag is set, the querySource loop stops immediately. -/
theorem querySourceLoop_done (maxPages : Int) (fuel : Nat) (s : QuerySourceLoopState)
    (h : s.done = true) : querySourceLoop maxPages fuel s = s := by
  cases fuel <;> simp [querySourceLoop, h]

/-- C9: for every maxPages (including values above 1 and 0) the querySource
loop issues exactly one granule-page query: the loop-termination expression
`done = ++page < maxPages || true` is true after the first iteration. -/
theorem querySource_single_page (maxPages : Int) (fuel : Nat) (h : 1 ≤ fuel) :
    querySourceQueryCount maxPages fuel = 1 := by
  obtain ⟨k, rfl⟩ : ∃ k, fuel = k + 1 := ⟨fuel - 1, by omega⟩
  unfold querySourceQueryCount
  rw [querySourceLoop]
  rw [if_neg (by simp [querySourceInit])]
  rw [querySourceLoop_done _ _ _ (by simp [querySourceIteration])]
  rfl

/-- Witness for C9 at maxPages 7 and 0 with an iteration budget of 5. -/
theorem querySource_single_page_witness :
    querySourceQueryCount 7 5 = 1 ∧ querySourceQueryCount 0 5 = 1 :=
  ⟨querySource_single_page 7 5 (by decide), querySource_single_page 0 5 (by decide)⟩

/-- C1 counterexample: the claim grants a `failed → failed` exception to the
save write barrier, but `Job#validateStatus` has no such exception: saving a
job whose originalStatus and status are both failed throws a ConflictError
instead of succeeding. -/
theorem save_refail_counterexample :
    jobFailedReloaded.originalStatus = some JobStatus.failed ∧
    jobFailedReloaded.status = JobStatus.failed ∧
    jobFailedReloaded.save jobsDbEmpty =
      Except.error ⟨"Job status cannot be updated from failed to failed."⟩ :=
  ⟨rfl, rfl, rfl⟩

/-- C1 amended: for every job loaded from the store with a terminal
originalStatus — with no exception, including originalStatus failed with
status failed — `save` throws a ConflictError and writes nothing (the error
return carries no updated record). -/
theorem save_terminal_write_barrier (j : Job) (db : JobsDb) (s : JobStatus)
    (horig : j.originalStatus = some s) (hterm : terminalStates.contains s = true) :
    j.save db = Except.error ⟨defaultTransitionErrorMessage s j.status⟩ := by
  have hv : j.validateStatus = Except.error ⟨defaultTransitionErrorMessage s j.status⟩ := by
    unfold Job.validateStatus
    rw [horig]
    simp only [hterm, if_true, ite_true]
  simp only [Job.save, bind, Except.bind, hv]

/-- Witness for the amended C1 at a canceled job. -/
theorem save_terminal_write_barrier_witness :
    jobCanceledReloaded.originalStatus = some JobStatus.canceled ∧
    terminalStates.contains JobStatus.canceled = true ∧
    jobCanceledReloaded.save jobsDbEmpty =
      Except.error ⟨defaultTransitionErrorMessage JobStatus.canceled JobStatus.canceled⟩ :=
  ⟨rfl, by decide,
    save_terminal_write_barrier jobCanceledReloaded jobsDbEmpty JobStatus.canceled rfl (by decide)⟩

/-- C4 counterexample: on a single step of fractional weight 1/2 at step
progress 1, the code computes floor(0.5 / 0.5) = 1 and raises the progress of a
job at progress 0 to 1, while the claimed formula floor(0.5 / max(1, 0.5)) = 0
predicts no change. -/
theorem updateProgress_fractional_weight_counterexample :
    (jobPending.updateProgress [stepHalfWeight]).progress = 1 ∧
    specClaimPredictedProgress jobPending [stepHalfWeight] = 0 := by
  constructor
  · simp only [Job.updateProgress, jobPending, stepHalfWeight, List.foldl_cons, List.foldl_nil]
    norm_num [max_def, min_def, Int.floor_one]
  · simp only [specClaimPredictedProgress, specClaimCandidate, jobPending, stepHalfWeight,
      List.map_cons, List.map_nil, List.sum_cons, List.sum_nil]
    norm_num [max_def, min_def]

/-- Folding weight sums is summing the mapped weights. -/
theorem foldl_weight_eq_sum (l : List WorkflowStepData) :
    ∀ init : ℚ, l.foldl (fun sum step => sum + step.progress_weight) init =
      init + (l.map fun step => step.progress_weight).sum := by
  induction l with
  | nil => intro init; simp
  | cons a t ih => intro init; simp [ih, add_assoc]

/-- Folding weighted step progress is summing the mapped products. -/
theorem foldl_weighted_progress_eq_sum (l : List WorkflowStepData) :
    ∀ init : ℚ, l.foldl (fun sum step => sum + step.progress_weight * step.progress) init =
      init + (l.map fun step => step.progress_weight * step.progress).sum := by
  induction l with
  | nil => intro init; simp
  | cons a t ih => intro init; simp [ih, add_assoc]

/-- C4 amended: `updateProgress` raises progress to the candidate exactly when
the candidate strictly exceeds the current progress, where the candidate is
`floor(weighted / total)` clamped to [0, 99] with `total` equal to the weight
sum when that sum is positive and to 1 otherwise — not `max(1, sum(weight_i))`
as claimed, which differs whenever the weight sum lies strictly between 0
and 1. -/
theorem updateProgress_amended (j : Job) (steps : List WorkflowStepData) :
    (j.updateProgress steps).progress =
      if j.progress < amendedClaimCandidate steps then amendedClaimCandidate steps
      else j.progress := by
  have hW := foldl_weight_eq_sum steps 0
  have hP := foldl_weighted_progress_eq_sum steps 0
  rw [zero_add] at hW hP
  simp only [Job.updateProgress, amendedClaimCandidate, hW, hP]
  set W := (steps.map fun step => step.progress_weight).sum with hWdef
  set P := (steps.map fun step => step.progress_weight * step.progress).sum with hPdef
  have hT : (0:ℚ) < if W > 0 then W else 1 := by
    split
    · assumption
    · norm_num
  have hfloor : ⌊max 0 P / (if W > 0 then W else 1)⌋ =
      max 0 ⌊P / (if W > 0 then W else 1)⌋ := by
    rcases le_or_lt 0 P with hp | hp
    · rw [max_eq_right hp, max_eq_right]
      exact Int.floor_nonneg.mpr (div_nonneg hp hT.le)
    · rw [max_eq_left hp.le, zero_div, Int.floor_zero, max_eq_left]
      have hPT : P / (if W > 0 then W else 1) ≤ 0 :=
        div_nonpos_iff.mpr (Or.inr ⟨hp.le, hT.le⟩)
      calc ⌊P / (if W > 0 then W else 1)⌋ ≤ ⌊(0:ℚ)⌋ := Int.floor_le_floor hPT
        _ = 0 := Int.floor_zero
  rw [hfloor]
  split <;> split <;> rfl

/-- The conflict message of every mutator names the current status. -/
theorem thrownMessage_names_current (m : Mutator) (s : JobStatus) :
    namesStatus (m.thrownMessage s) s := by
  cases m <;> simp only [Mutator.thrownMessage, Mutator.desired] <;> cases s <;> decide

/-- The conflict message of the five mutators that keep the default
`validateTransition` message also names the desired status. -/
theorem thrownMessage_names_desired (m : Mutator) (s : JobStatus)
    (hd : m.usesDefaultMessage = true) :
    namesStatus (m.thrownMessage s) m.desired := by
  cases m <;> simp_all only [Mutator.usesDefaultMessage, Mutator.thrownMessage,
    Mutator.desired, Bool.false_eq_true] <;> cases s <;> decide

/-- C3 amended: a public mutator invoked in a state for which the transition
table does not list its event throws a ConflictError and leaves the job (its
status, progress and messages) unchanged; the message always names the current
status, and for pause, fail, cancel, succeed and complete_with_errors (which
keep the default `validateTransition` message) it also names the desired
status, while resume and skipPreview substitute custom messages that name only
the current status. -/
theorem mutator_invalid_transition (m : Mutator) (j : Job)
    (h : stateMachineOn j.status m.event = none) :
    applyMutator m j = Except.error ⟨m.thrownMessage j.status⟩ ∧
    attemptMutator m j = j ∧
    namesStatus (m.thrownMessage j.status) j.status ∧
    (m.usesDefaultMessage = true → namesStatus (m.thrownMessage j.status) m.desired) := by
  have hct : canTransition j.status m.desired m.event = false := by
    simp [canTransition, h]
  have herr : applyMutator m j = Except.error ⟨m.thrownMessage j.status⟩ := by
    cases m <;>
      simp_all [applyMutator, Job.pause, Job.resume, Job.skipPreview, Job.fail, Job.cancel,
        Job.succeed, Job.complete_with_errors, validateTransition, Mutator.event,
        Mutator.desired, Mutator.thrownMessage, bind, Except.bind]
  exact ⟨herr, by simp [attemptMutator, herr], thrownMessage_names_current m j.status,
    fun hd => thrownMessage_names_desired m j.status hd⟩

/-- C3 counterexample: resume invoked on an accepted job (a state for which the
table does not list RESUME) throws a ConflictError whose message does not name
the desired status (running), contrary to the claim that the message of every
mutator names the current and desired statuses. -/
theorem resume_message_counterexample :
    jobAccepted.resume =
      Except.error ⟨"Job status is accepted - only paused jobs can be resumed."⟩ ∧
    ¬ namesStatus "Job status is accepted - only paused jobs can be resumed."
      JobStatus.running := by
  exact ⟨rfl, by decide⟩

/-- Witness for the amended C3: resume on an accepted job. -/
theorem mutator_invalid_transition_witness :
    stateMachineOn jobAccepted.status (Mutator.resume).event = none ∧
    applyMutator Mutator.resume jobAccepted =
      Except.error ⟨(Mutator.resume).thrownMessage jobAccepted.status⟩ ∧
    attemptMutator Mutator.resume jobAccepted = jobAccepted ∧
    namesStatus ((Mutator.resume).thrownMessage jobAccepted.status) jobAccepted.status :=
  ⟨rfl, (mutator_invalid_transition Mutator.resume jobAccepted rfl).1,
   (mutator_invalid_transition Mutator.resume jobAccepted rfl).2.1,
   (mutator_invalid_transition Mutator.resume jobAccepted rfl).2.2.1⟩

/-- A mutator that returns normally leaves progress unchanged, except that
succeed and complete_with_errors force it to 100. -/
theorem applyMutator_ok_progress (m : Mutator) (j j' : Job)
    (h : applyMutator m j = Except.ok j') :
    j'.progress =
      if m.desired = JobStatus.successful ∨ m.desired = JobStatus.complete_with_errors then 100
      else j.progress := by
  cases m <;>
    simp only [applyMutator, Job.pause, Job.resume, Job.skipPreview, Job.fail, Job.cancel,
      Job.succeed, Job.complete_with_errors, validateTransition, bind, Except.bind] at h <;>
    split at h <;>
    first
      | exact Except.noConfusion h
      | (injection h with h
         subst h
         simp [updateStatus_progress, Mutator.desired])

/-- Progress bounds for one rollup call: progress never decreases and never
exceeds the previous progress or 99. -/
theorem updateProgress_progress_bounds (j : Job) (steps : List WorkflowStepData) :
    j.progress ≤ (j.updateProgress steps).progress ∧
    (j.updateProgress steps).progress ≤ max j.progress 99 := by
  simp only [Job.updateProgress]
  split <;> split
  all_goals
    first
      | exact ⟨le_of_lt (by assumption), le_trans (min_le_right _ _) (le_max_right _ _)⟩
      | exact ⟨le_refl _, le_max_left _ _⟩

/-- A rollup call that changes progress sets it to at most 99. -/
theorem updateProgress_cap (j : Job) (steps : List WorkflowStepData)
    (hne : (j.updateProgress steps).progress ≠ j.progress) :
    (j.updateProgress steps).progress ≤ 99 := by
  revert hne
  simp only [Job.updateProgress]
  split <;> split
  all_goals
    first
      | exact fun _ => min_le_right _ _
      | exact fun hne => absurd rfl hne

/-- One call of a sequence preserves the progress invariant. -/
theorem runOp_progress (j : Job) (op : JobOp) (hj : j.progress ≤ 100) :
    j.progress ≤ (runOp j op).progress ∧ (runOp j op).progress ≤ 100 := by
  cases op with
  | mutate m =>
      simp only [runOp, attemptMutator]
      cases hap : applyMutator m j with
      | error e => exact ⟨le_refl _, hj⟩
      | ok j' =>
          rw [applyMutator_ok_progress m j j' hap]
          split
          · exact ⟨hj, le_refl _⟩
          · exact ⟨le_refl _, hj⟩
  | updateProgress steps =>
      have hb := updateProgress_progress_bounds j steps
      refine ⟨hb.1, le_trans hb.2 ?_⟩
      exact max_le hj (by norm_num)

/-- A whole sequence of calls preserves the progress invariant. -/
theorem runOps_progress (j : Job) (ops : List JobOp) (hj : j.progress ≤ 100) :
    j.progress ≤ (runOps j ops).progress ∧ (runOps j ops).progress ≤ 100 := by
  induction ops generalizing j with
  | nil => exact ⟨le_refl _, hj⟩
  | cons op t ih =>
      have h1 := runOp_progress j op hj
      have h2 := ih (runOp j op) h1.2
      exact ⟨le_trans h1.1 h2.1, h2.2⟩

/-- C5: over every sequence of public mutator and updateProgress calls starting
from a job with valid progress, progress never decreases; a rollup that changes
progress never sets it above 99; and a succeed or complete_with_errors call
that returns normally leaves progress exactly 100. -/
theorem progress_monotone_invariant (j : Job) (ops : List JobOp)
    (steps : List WorkflowStepData) (msg : Option String) (j1 j2 : Job)
    (hj : j.progress ≤ 100) :
    j.progress ≤ (runOps j ops).progress ∧
    ((j.updateProgress steps).progress ≠ j.progress → (j.updateProgress steps).progress ≤ 99) ∧
    (j.succeed msg = Except.ok j1 → j1.progress = 100) ∧
    (j.complete_with_errors msg = Except.ok j2 → j2.progress = 100) := by
  refine ⟨(runOps_progress j ops hj).1, updateProgress_cap j steps, ?_, ?_⟩
  · intro h
    have h100 := applyMutator_ok_progress (.succeed msg) j j1 h
    simpa [Mutator.desired] using h100
  · intro h
    have h100 := applyMutator_ok_progress (.complete_with_errors msg) j j2 h
    simpa [Mutator.desired] using h100

/-- Witness for C5: a running job at progress 30 that succeeds. -/
theorem progress_monotone_invariant_witness :
    jobRunning30.progress ≤ 100 ∧
    jobRunning30.progress ≤ (runOps jobRunning30 [JobOp.mutate (Mutator.succeed none)]).progress ∧
    jobRunning30.succeed none = Except.ok succeedResultW ∧
    succeedResultW.progress = 100 := by
  have h := progress_monotone_invariant jobRunning30 [JobOp.mutate (Mutator.succeed none)]
    [] none succeedResultW succeedResultW (by decide)
  have hok : jobRunning30.succeed none = Except.ok succeedResultW := rfl
  exact ⟨by decide, h.1, hok, h.2.2.1 hok⟩

/-- The strict lexicographic comparison is irreflexive. -/
theorem lexLt_irrefl (a : Int × Int) : lexLt a a = false := by
  simp [lexLt]

/-- The strict lexicographic comparison is asymmetric. -/
theorem lexLt_asymm (a b : Int × Int) (h : lexLt a b = true) : lexLt b a = false := by
  simp only [lexLt, Bool.or_eq_true, Bool.and_eq_true, decide_eq_true_eq,
    Bool.or_eq_false_iff, Bool.and_eq_false_iff, decide_eq_false_iff_not] at h ⊢
  omega

/-- Lex non-strict order (expressed by a false strict comparison) is
transitive. -/
theorem lexLt_false_trans (a b c : Int × Int) (h1 : lexLt a b = false)
    (h2 : lexLt b c = false) : lexLt a c = false := by
  simp only [lexLt, Bool.or_eq_false_iff, Bool.and_eq_false_iff,
    decide_eq_false_iff_not] at h1 h2 ⊢
  omega

/-- Only the empty candidate list selects nobody. -/
theorem selectFirstMinimal_eq_none (cands : List String) (key : String → Int × Int)
    (h : selectFirstMinimal cands key = none) : cands = [] := by
  cases cands with
  | nil => rfl
  | cons c t =>
      exfalso
      rw [selectFirstMinimal] at h
      cases hrec : selectFirstMinimal t key with
      | none =>
          simp only [hrec] at h
          exact Option.noConfusion h
      | some b =>
          simp only [hrec] at h
          split at h <;> exact Option.noConfusion h

/-- A selected candidate belongs to the candidate list. -/
theorem selectFirstMinimal_mem (cands : List String) (key : String → Int × Int) :
    ∀ u, selectFirstMinimal cands key = some u → u ∈ cands := by
  induction cands with
  | nil => intro u h; exact Option.noConfusion h
  | cons c t ih =>
      intro u h
      rw [selectFirstMinimal] at h
      cases hrec : selectFirstMinimal t key with
      | none =>
          simp only [hrec] at h
          injection h with h
          subst h
          exact List.mem_cons_self _ _
      | some b =>
          simp only [hrec] at h
          split at h
          · injection h with h
            subst h
            exact List.mem_cons_of_mem _ (ih _ hrec)
          · injection h with h
            subst h
            exact List.mem_cons_self _ _

/-- A selected candidate has a minimal key. -/
theorem selectFirstMinimal_min (cands : List String) (key : String → Int × Int) :
    ∀ u, selectFirstMinimal cands key = some u →
      ∀ v ∈ cands, lexLt (key v) (key u) = false := by
  induction cands with
  | nil => intro u h; exact Option.noConfusion h
  | cons c t ih =>
      intro u h
      rw [selectFirstMinimal] at h
      cases hrec : selectFirstMinimal t key with
      | none =>
          simp only [hrec] at h
          injection h with h
          subst h
          have ht := selectFirstMinimal_eq_none t key hrec
          subst ht
          intro v hv
          rcases List.mem_cons.mp hv with rfl | hv
          · exact lexLt_irrefl _
          · exact absurd hv (List.not_mem_nil _)
      | some b =>
          simp only [hrec] at h
          split at h
          next hlt =>
            injection h with h
            subst h
            intro v hv
            rcases List.mem_cons.mp hv with rfl | hv
            · exact lexLt_asymm _ _ hlt
            · exact ih _ hrec v hv
          next hlt =>
            injection h with h
            subst h
            intro v hv
            rcases List.mem_cons.mp hv with rfl | hv
            · exact lexLt_irrefl _
            · exact lexLt_false_trans _ _ _ (ih _ hrec v hv) (Bool.eq_false_iff.mpr hlt)

/-- A nonempty candidate list selects someone. -/
theorem selectFirstMinimal_isSome (cands : List String) (key : String → Int × Int)
    (h : cands ≠ []) : (selectFirstMinimal cands key).isSome = true := by
  cases hsel : selectFirstMinimal cands key with
  | none => exact absurd (selectFirstMinimal_eq_none cands key hsel) h
  | some b => rfl

/-- A row matched by the subquery puts its username among the candidates. -/
theorem mem_subqueryUsernames (rows : List UserWorkRow) (serviceID : String)
    (r : UserWorkRow) (hr : r ∈ rows) (hsid : r.service_id = serviceID)
    (hready : r.ready_count > 0) : r.username ∈ subqueryUsernames rows serviceID := by
  unfold subqueryUsernames
  rw [List.mem_dedup]
  exact List.mem_map.mpr
    ⟨r, List.mem_filter.mpr ⟨hr, by simp [userQualifiesForService, hsid, hready]⟩, rfl⟩

/-- C6: whenever `getNextUsernameForWork` returns a username, that username has
a row for the service with a positive ready count (it never returns a user with
zero ready items), and its (sum of running_count, max last_worked) key is
lexicographically minimal among all usernames with such a row — least running
work first, older last_worked on ties; moreover a username is returned whenever
any row for the service has a positive ready count. -/
theorem getNextUsernameForWork_fair (rows : List UserWorkRow) (serviceID : String) :
    (∀ u, getNextUsernameForWork rows serviceID = some u →
      ((∃ r ∈ rows, r.username = u ∧ r.service_id = serviceID ∧ r.ready_count > 0) ∧
       ∀ v, (∃ r ∈ rows, r.username = v ∧ r.service_id = serviceID ∧ r.ready_count > 0) →
         lexLt (userWorkKey rows v) (userWorkKey rows u) = false)) ∧
    ((∃ r ∈ rows, r.service_id = serviceID ∧ r.ready_count > 0) →
      (getNextUsernameForWork rows serviceID).isSome = true) := by
  constructor
  · intro u hu
    unfold getNextUsernameForWork at hu
    have hmem := selectFirstMinimal_mem _ _ _ hu
    have hmin := selectFirstMinimal_min _ _ _ hu
    constructor
    · unfold subqueryUsernames at hmem
      rw [List.mem_dedup] at hmem
      rcases List.mem_map.mp hmem with ⟨r, hr, rfl⟩
      have hf := List.mem_filter.mp hr
      have hq := hf.2
      simp only [userQualifiesForService, Bool.and_eq_true, decide_eq_true_eq] at hq
      exact ⟨r, hf.1, rfl, hq.1, hq.2⟩
    · rintro v ⟨r, hr, hvu, hsid, hready⟩
      exact hmin v (hvu ▸ mem_subqueryUsernames rows serviceID r hr hsid hready)
  · rintro ⟨r, hr, hsid, hready⟩
    unfold getNextUsernameForWork
    apply selectFirstMinimal_isSome
    intro hempty
    have hm := mem_subqueryUsernames rows serviceID r hr hsid hready
    rw [hempty] at hm
    exact absurd hm (List.not_mem_nil _)

/-- Witness for C6 at scenario S4: equal running load, userB is older. -/
theorem getNextUsernameForWork_fair_witness :
    getNextUsernameForWork s4Rows "s" = some "userB" ∧
    (∃ r ∈ s4Rows, r.username = "userB" ∧ r.service_id = "s" ∧ r.ready_count > 0) := by
  have h : getNextUsernameForWork s4Rows "s" = some "userB" := by decide
  exact ⟨h, ((getNextUsernameForWork_fair s4Rows "s").1 "userB" h).1⟩

/-- Inversion of a completed pauseAndSave: the resulting user_work table is the
ready-zeroed table of the job. -/
theorem pauseAndSave_ok_userWork (j : Job) (db : JobsDb) (uw : List UserWorkRow)
    (j2 : Job) (db2 : JobsDb) (uw2 : List UserWorkRow)
    (h : j.pauseAndSave db uw = Except.ok (j2, db2, uw2)) :
    uw2 = setReadyCountToZero uw j.jobID := by
  simp only [Job.pauseAndSave, bind, Except.bind] at h
  split at h
  · exact Except.noConfusion h
  · split at h
    · exact Except.noConfusion h
    · simp only [Except.ok.injEq, Prod.mk.injEq] at h
      exact h.2.2.symm

/-- C7: when `pauseAndSave` completes, every user_work row of the job has a
zero ready count, while running counts are unchanged everywhere and rows of
other jobs are untouched. -/
theorem pauseAndSave_zeroes_ready (j : Job) (db : JobsDb) (uw : List UserWorkRow)
    (j2 : Job) (db2 : JobsDb) (uw2 : List UserWorkRow)
    (h : j.pauseAndSave db uw = Except.ok (j2, db2, uw2)) :
    (∀ r ∈ uw2, r.job_id = j.jobID → r.ready_count = 0) ∧
    uw2.length = uw.length ∧
    (∀ i (hi : i < uw.length) (hi2 : i < uw2.length),
      (uw2.get ⟨i, hi2⟩).running_count = (uw.get ⟨i, hi⟩).running_count ∧
      ((uw.get ⟨i, hi⟩).job_id ≠ j.jobID → uw2.get ⟨i, hi2⟩ = uw.get ⟨i, hi⟩)) := by
  have huw := pauseAndSave_ok_userWork j db uw j2 db2 uw2 h
  subst huw
  refine ⟨?_, ?_, ?_⟩
  · intro r hr hrid
    unfold setReadyCountToZero at hr
    rcases List.mem_map.mp hr with ⟨r0, _, rfl⟩
    by_cases h0 : r0.job_id = j.jobID
    · simp [h0]
    · rw [if_neg h0] at hrid ⊢
      exact absurd hrid h0
  · unfold setReadyCountToZero
    exact List.length_map _ _
  · intro i hi hi2
    simp only [setReadyCountToZero, List.get_eq_getElem, List.getElem_map]
    by_cases h0 : (uw.get ⟨i, hi⟩).job_id = j.jobID <;>
      simp only [List.get_eq_getElem] at h0 <;>
      simp [h0]

/-- Witness for C7: pausing the running job J1 over a three-row user_work
table. -/
theorem pauseAndSave_zeroes_ready_witness :
    jobRunningW.pauseAndSave jobsDbEmpty uwRowsW =
      Except.ok (pauseAndSaveResultW.1, pauseAndSaveResultW.2.1, pauseAndSaveResultW.2.2) ∧
    pauseAndSaveResultW.2.2.length = uwRowsW.length ∧
    pauseAndSaveResultW.2.2.all
      (fun r => !(r.job_id == "J1") || (r.ready_count == 0)) = true := by
  have hok : jobRunningW.pauseAndSave jobsDbEmpty uwRowsW =
      Except.ok (pauseAndSaveResultW.1, pauseAndSaveResultW.2.1, pauseAndSaveResultW.2.2) := rfl
  exact ⟨hok, (pauseAndSave_zeroes_ready _ _ _ _ _ _ hok).2.1, by decide⟩

/-- C10: when no row for the username and service has a positive ready count,
`getNextJobIdForUsernameAndService` throws (it reads `.job_id` from an
undefined query result), while `getNextUsernameForWork` in the analogous empty
case returns undefined (none) thanks to its optional chaining. -/
theorem getNextJobId_throws_on_empty (rows : List UserWorkRow) (serviceID username : String)
    (hnone : ∀ r ∈ rows, ¬(r.username = username ∧ r.service_id = serviceID ∧
      r.ready_count > 0)) :
    getNextJobIdForUsernameAndService rows serviceID username =
      Except.error "TypeError: cannot read job_id of undefined" ∧
    ((∀ r ∈ rows, ¬(r.service_id = serviceID ∧ r.ready_count > 0)) →
      getNextUsernameForWork rows serviceID = none) := by
  constructor
  · unfold getNextJobIdForUsernameAndService
    have hfil : rows.filter (fun r =>
        decide (r.username = username) && decide (r.service_id = serviceID) &&
          decide (r.ready_count > 0)) = [] := by
      rw [List.filter_eq_nil_iff]
      intro r hr
      have := hnone r hr
      simp only [Bool.and_eq_true, decide_eq_true_eq, not_and] at this ⊢
      tauto
    rw [hfil]
    rfl
  · intro hnoservice
    have hsub : subqueryUsernames rows serviceID = [] := by
      unfold subqueryUsernames
      have hfil : rows.filter (userQualifiesForService serviceID) = [] := by
        rw [List.filter_eq_nil_iff]
        intro r hr
        have := hnoservice r hr
        simp only [userQualifiesForService, Bool.and_eq_true, decide_eq_true_eq, not_and] at this ⊢
        tauto
      rw [hfil]
      rfl
    unfold getNextUsernameForWork
    rw [hsub]
    rfl

/-- Witness for C10: a table whose only row has no ready items. -/
theorem getNextJobId_throws_on_empty_witness :
    getNextJobIdForUsernameAndService uwNoReady "svc9" "carol" =
      Except.error "TypeError: cannot read job_id of undefined" ∧
    getNextUsernameForWork uwNoReady "svc9" = none :=
  ⟨(getNextJobId_throws_on_empty uwNoReady "svc9" "carol" (by decide)).1,
   (getNextJobId_throws_on_empty uwNoReady "svc9" "carol" (by decide)).2 (by decide)⟩

/-- In a list with pairwise distinct ids, the ids of a filtered sublist contain
the id of a member exactly when the member satisfies the filter. -/
theorem contains_map_filter_id {α : Type} (idf : α → Int) (p : α → Bool) (l : List α)
    (hnd : (l.map idf).Nodup) (a : α) (ha : a ∈ l) :
    ((l.filter p).map idf).contains (idf a) = p a := by
  have hchar : ∀ (l2 : List α) (n : Int), ((l2.map idf).contains n = true) ↔
      ∃ x ∈ l2, idf x = n := by
    intro l2 n
    simp
  cases hb : p a with
  | false =>
      apply Bool.eq_false_iff.mpr
      intro hc
      rcases (hchar _ _).mp hc with ⟨x, hx, hxid⟩
      have hxl := List.mem_filter.mp hx
      have hax : x = a := List.inj_on_of_nodup_map hnd hxl.1 ha hxid
      rw [hax] at hxl
      rw [hxl.2] at hb
      exact Bool.noConfusion hb
  | true =>
      exact (hchar _ _).mpr ⟨a, List.mem_filter.mpr ⟨ha, hb⟩, rfl⟩

/-- Deleting the selected work items of a tick filters the work-items table by
the reapability predicate. -/
theorem deleteWorkItems_filter (db : ReaperDb) (minAge : Int) (sts : List JobStatus)
    (hnd : (db.workItems.map fun i => i.id).Nodup) :
    (deleteWorkItemsById db (getWorkItemIdsByJobUpdateAgeAndStatus db minAge sts)).1.workItems =
      db.workItems.filter (fun i => !(jobIsReapable db minAge sts i.jobID)) := by
  unfold deleteWorkItemsById getWorkItemIdsByJobUpdateAgeAndStatus
  dsimp only
  apply List.filter_congr
  intro i hi
  rw [contains_map_filter_id (fun i => i.id) _ _ hnd i hi]

/-- Deleting the selected workflow steps of a tick filters the workflow-steps
table by the reapability predicate. -/
theorem deleteWorkflowSteps_filter (db : ReaperDb) (minAge : Int) (sts : List JobStatus)
    (hnd : (db.workflowSteps.map fun st => st.id).Nodup) :
    (deleteWorkflowStepsById db
        (getWorkflowStepIdsByJobUpdateAgeAndStatus db minAge sts)).1.workflowSteps =
      db.workflowSteps.filter (fun st => !(jobIsReapable db minAge sts st.jobID)) := by
  unfold deleteWorkflowStepsById getWorkflowStepIdsByJobUpdateAgeAndStatus
  dsimp only
  apply List.filter_congr
  intro st hst
  rw [contains_map_filter_id (fun st => st.id) _ _ hnd st hst]

/-- An empty id selection means no row is reapable, so the filter by
non-reapability keeps the whole work-items table. -/
theorem workItems_filter_of_empty (db : ReaperDb) (minAge : Int) (sts : List JobStatus)
    (he : (getWorkItemIdsByJobUpdateAgeAndStatus db minAge sts).isEmpty = true) :
    db.workItems.filter (fun i => !(jobIsReapable db minAge sts i.jobID)) = db.workItems := by
  apply List.filter_eq_self.mpr
  intro i hi
  unfold getWorkItemIdsByJobUpdateAgeAndStatus at he
  rw [List.isEmpty_iff, List.map_eq_nil_iff, List.filter_eq_nil_iff] at he
  simp [he i hi]

/-- An empty id selection keeps the whole workflow-steps table. -/
theorem workflowSteps_filter_of_empty (db : ReaperDb) (minAge : Int) (sts : List JobStatus)
    (he : (getWorkflowStepIdsByJobUpdateAgeAndStatus db minAge sts).isEmpty = true) :
    db.workflowSteps.filter (fun st => !(jobIsReapable db minAge sts st.jobID)) =
      db.workflowSteps := by
  apply List.filter_eq_self.mpr
  intro st hst
  unfold getWorkflowStepIdsByJobUpdateAgeAndStatus at he
  rw [List.isEmpty_iff, List.map_eq_nil_iff, List.filter_eq_nil_iff] at he
  simp [he st hst]

/-- Reapability only depends on the jobs table. -/
theorem jobIsReapable_congr (db db2 : ReaperDb) (h : db2.jobs = db.jobs) (minAge : Int)
    (sts : List JobStatus) (jid : String) :
    jobIsReapable db2 minAge sts jid = jobIsReapable db minAge sts jid := by
  unfold jobIsReapable
  rw [h]

/-- The work-item stage without its fault: it raises nothing, touches neither
the jobs nor the workflow-steps table, and filters the work items by
non-reapability. -/
theorem reapItemsStage_noFault (db : ReaperDb) (minAge : Int) (sts : List JobStatus)
    (fault : Nat) (hf1 : fault ≠ 1) (hnd : (db.workItems.map fun i => i.id).Nodup) :
    (reapItemsStage db minAge sts fault).2.2 = none ∧
    (reapItemsStage db minAge sts fault).1.jobs = db.jobs ∧
    (reapItemsStage db minAge sts fault).1.workflowSteps = db.workflowSteps ∧
    (reapItemsStage db minAge sts fault).1.workItems =
      db.workItems.filter (fun i => !(jobIsReapable db minAge sts i.jobID)) := by
  unfold reapItemsStage
  by_cases hie : (getWorkItemIdsByJobUpdateAgeAndStatus db minAge sts).isEmpty = true
  · simp only [hie, ite_true]
    refine ⟨?_, ?_, ?_, ?_⟩ <;>
      first
        | trivial
        | rfl
        | exact (workItems_filter_of_empty db minAge sts hie).symm
  · simp only [hie, Bool.false_eq_true, ite_false, hf1]
    refine ⟨?_, ?_, ?_, ?_⟩ <;>
      first
        | trivial
        | rfl
        | exact deleteWorkItems_filter db minAge sts hnd

/-- For every fault, the work-item stage leaves jobs and workflow steps alone
and either keeps or filters the work items. -/
theorem reapItemsStage_frame (db : ReaperDb) (minAge : Int) (sts : List JobStatus)
    (fault : Nat) (hnd : (db.workItems.map fun i => i.id).Nodup) :
    (reapItemsStage db minAge sts fault).1.jobs = db.jobs ∧
    (reapItemsStage db minAge sts fault).1.workflowSteps = db.workflowSteps ∧
    ((reapItemsStage db minAge sts fault).1.workItems = db.workItems ∨
     (reapItemsStage db minAge sts fault).1.workItems =
       db.workItems.filter (fun i => !(jobIsReapable db minAge sts i.jobID))) := by
  unfold reapItemsStage
  by_cases hie : (getWorkItemIdsByJobUpdateAgeAndStatus db minAge sts).isEmpty = true
  · simp only [hie, ite_true]
    refine ⟨?_, ?_, ?_⟩ <;>
      first
        | trivial
        | exact Or.inl trivial
  · simp only [hie, Bool.false_eq_true, ite_false]
    by_cases hf1 : fault = 1
    · simp only [hf1, ite_true]
      refine ⟨?_, ?_, ?_⟩ <;>
        first
          | trivial
          | exact Or.inl trivial
    · simp only [hf1, Bool.false_eq_true, ite_false]
      refine ⟨?_, ?_, ?_⟩ <;>
        first
          | trivial
          | rfl
          | exact Or.inr (deleteWorkItems_filter db minAge sts hnd)

/-- The workflow-step stage without its faults: it raises nothing, touches
neither the jobs nor the work-items table, and filters the workflow steps by
non-reapability. -/
theorem reapStepsStage_noFault (db : ReaperDb) (minAge : Int) (sts : List JobStatus)
    (fault : Nat) (hf2 : fault ≠ 2) (hf3 : fault ≠ 3)
    (hnd : (db.workflowSteps.map fun st => st.id).Nodup) :
    (reapStepsStage db minAge sts fault).2.2 = none ∧
    (reapStepsStage db minAge sts fault).1.jobs = db.jobs ∧
    (reapStepsStage db minAge sts fault).1.workItems = db.workItems ∧
    (reapStepsStage db minAge sts fault).1.workflowSteps =
      db.workflowSteps.filter (fun st => !(jobIsReapable db minAge sts st.jobID)) := by
  unfold reapStepsStage
  simp only [hf2, Bool.false_eq_true, ite_false]
  by_cases hse : (getWorkflowStepIdsByJobUpdateAgeAndStatus db minAge sts).isEmpty = true
  · simp only [hse, ite_true]
    refine ⟨?_, ?_, ?_, ?_⟩ <;>
      first
        | trivial
        | rfl
        | exact (workflowSteps_filter_of_empty db minAge sts hse).symm
  · simp only [hse, Bool.false_eq_true, ite_false, hf3]
    refine ⟨?_, ?_, ?_, ?_⟩ <;>
      first
        | trivial
        | rfl
        | exact deleteWorkflowSteps_filter db minAge sts hnd

/-- For every fault, the workflow-step stage leaves jobs and work items
alone. -/
theorem reapStepsStage_frame (db : ReaperDb) (minAge : Int) (sts : List JobStatus)
    (fault : Nat) :
    (reapStepsStage db minAge sts fault).1.jobs = db.jobs ∧
    (reapStepsStage db minAge sts fault).1.workItems = db.workItems := by
  unfold reapStepsStage
  by_cases hf2 : fault = 2
  · simp only [hf2, ite_true]
    refine ⟨?_, ?_⟩ <;> trivial
  · simp only [hf2, Bool.false_eq_true, ite_false]
    by_cases hse : (getWorkflowStepIdsByJobUpdateAgeAndStatus db minAge sts).isEmpty = true
    · simp only [hse, ite_true]
      refine ⟨?_, ?_⟩ <;> trivial
    · simp only [hse, Bool.false_eq_true, ite_false]
      by_cases hf3 : fault = 3
      · simp only [hf3, ite_true]
        refine ⟨?_, ?_⟩ <;> trivial
      · simp only [hf3, Bool.false_eq_true, ite_false]
        refine ⟨?_, ?_⟩ <;> trivial

/-- The whole tick body without faults raises nothing and filters both derived
tables by non-reapability, leaving the jobs table alone. -/
theorem deleteTerminalWorkAttempt_noFault (db : ReaperDb) (minAge : Int)
    (sts : List JobStatus) (fault : Nat) (h4 : 4 ≤ fault)
    (hndI : (db.workItems.map fun i => i.id).Nodup)
    (hndS : (db.workflowSteps.map fun st => st.id).Nodup) :
    (deleteTerminalWorkAttempt db minAge sts fault).2.2 = none ∧
    (deleteTerminalWorkAttempt db minAge sts fault).1.jobs = db.jobs ∧
    (deleteTerminalWorkAttempt db minAge sts fault).1.workItems =
      db.workItems.filter (fun i => !(jobIsReapable db minAge sts i.jobID)) ∧
    (deleteTerminalWorkAttempt db minAge sts fault).1.workflowSteps =
      db.workflowSteps.filter (fun st => !(jobIsReapable db minAge sts st.jobID)) := by
  have hf0 : ¬(fault = 0) := by omega
  have hI := reapItemsStage_noFault db minAge sts fault (by omega) hndI
  unfold deleteTerminalWorkAttempt
  simp only [hf0, Bool.false_eq_true, ite_false]
  rcases hIeq : reapItemsStage db minAge sts fault with ⟨db1, logs1, e1⟩
  rw [hIeq] at hI
  obtain ⟨he1, hjobs1, hsteps1, hitems1⟩ := hI
  simp only at he1 hjobs1 hsteps1 hitems1
  subst he1
  have hndS1 : (db1.workflowSteps.map fun st => st.id).Nodup := by rw [hsteps1]; exact hndS
  have hS := reapStepsStage_noFault db1 minAge sts fault (by omega) (by omega) hndS1
  rcases hSeq : reapStepsStage db1 minAge sts fault with ⟨db2, logs2, e2⟩
  rw [hSeq] at hS
  obtain ⟨he2, hjobs2, hitems2, hsteps2⟩ := hS
  simp only at he2 hjobs2 hitems2 hsteps2
  subst he2
  dsimp only
  rw [hSeq]
  refine ⟨rfl, ?_, ?_, ?_⟩
  · rw [hjobs2, hjobs1]
  · rw [hitems2, hitems1]
  · rw [hsteps2, hsteps1]
    apply List.filter_congr
    intro st _
    rw [jobIsReapable_congr db db1 hjobs1]

/-- For every fault, a work item of a non-reapable job survives the tick. -/
theorem deleteTerminalWork_keeps_item (db : ReaperDb) (minAge : Int) (sts : List JobStatus)
    (fault : Nat) (hndI : (db.workItems.map fun i => i.id).Nodup)
    (i : WorkItemRecord) (hi : i ∈ db.workItems)
    (hfalse : jobIsReapable db minAge sts i.jobID = false) :
    i ∈ (deleteTerminalWork db minAge sts fault).1.workItems := by
  have hmem : ∀ l : List WorkItemRecord,
      (l = db.workItems ∨
        l = db.workItems.filter (fun i2 => !(jobIsReapable db minAge sts i2.jobID))) →
      i ∈ l := by
    rintro l (rfl | rfl)
    · exact hi
    · exact List.mem_filter.mpr ⟨hi, by rw [hfalse]; rfl⟩
  unfold deleteTerminalWork deleteTerminalWorkAttempt
  by_cases hf0 : fault = 0
  · simp only [hf0, ite_true]
    exact hi
  · simp only [hf0, Bool.false_eq_true, ite_false]
    have hI := reapItemsStage_frame db minAge sts fault hndI
    rcases hIeq : reapItemsStage db minAge sts fault with ⟨db1, logs1, e1⟩
    rw [hIeq] at hI
    obtain ⟨hjobs1, hsteps1, hitems1⟩ := hI
    simp only at hjobs1 hsteps1 hitems1
    cases e1 with
    | some e =>
        dsimp only
        exact hmem db1.workItems hitems1
    | none =>
        dsimp only
        have hS := reapStepsStage_frame db1 minAge sts fault
        rcases hSeq : reapStepsStage db1 minAge sts fault with ⟨db2, logs2, e2⟩
        rw [hSeq] at hS
        obtain ⟨hjobs2, hitems2⟩ := hS
        simp only at hjobs2 hitems2
        cases e2 <;>
          · dsimp only
            rw [hitems2]
            exact hmem db1.workItems hitems1

/-- Reapability for the status list of a tick spelled out: the parent job is
failed, successful or canceled, and idle longer than the threshold. -/
theorem jobIsReapable_tick_iff (db : ReaperDb) (minAge : Int) (jid : String) :
    jobIsReapable db minAge workReaperTickStatuses jid = true ↔
      ∃ job ∈ db.jobs, job.jobID = jid ∧
        (job.status = JobStatus.failed ∨ job.status = JobStatus.successful ∨
          job.status = JobStatus.canceled) ∧
        job.minutesSinceUpdate > minAge := by
  unfold jobIsReapable workReaperTickStatuses
  simp only [List.any_eq_true, Bool.and_eq_true, decide_eq_true_eq]
  constructor
  · rintro ⟨job, hjob, ⟨⟨hid, hst⟩, hage⟩⟩
    refine ⟨job, hjob, hid, ?_, hage⟩
    simpa using hst
  · rintro ⟨job, hjob, hid, hst, hage⟩
    refine ⟨job, hjob, ⟨⟨hid, ?_⟩, hage⟩⟩
    simpa using hst

/-- The catch of `deleteTerminalWork`: a raised error is swallowed and turned
into two log lines, and the call returns normally. -/
theorem deleteTerminalWork_catches (db : ReaperDb) (minAge : Int) (sts : List JobStatus)
    (fault : Nat) (dbe : ReaperDb) (logs : List String) (e : String)
    (h : deleteTerminalWorkAttempt db minAge sts fault = (dbe, logs, some e)) :
    deleteTerminalWork db minAge sts fault =
      (dbe, logs ++ ["Error attempting to delete terminal work items", e]) := by
  unfold deleteTerminalWork
  rw [h]

/-- C8: on a reaper tick (whose status list is failed, successful, canceled),
a faultless `deleteTerminalWork` deletes exactly the work items and workflow
steps of jobs in one of those three statuses whose last update is older than
the threshold; a job of any other status — running or complete_with_errors
included — keeps its rows whatever its age and whatever fault occurs; and any
storage error raised during the tick is caught and logged, so the call returns
normally instead of propagating the exception. -/
theorem workReaper_deleteTerminalWork_spec (db : ReaperDb) (minAge : Int) (fault : Nat)
    (hndI : (db.workItems.map fun i => i.id).Nodup)
    (hndS : (db.workflowSteps.map fun st => st.id).Nodup) :
    (4 ≤ fault →
      (deleteTerminalWork db minAge workReaperTickStatuses fault).1.jobs = db.jobs ∧
      (deleteTerminalWork db minAge workReaperTickStatuses fault).1.workItems =
        db.workItems.filter
          (fun i => !(jobIsReapable db minAge workReaperTickStatuses i.jobID)) ∧
      (deleteTerminalWork db minAge workReaperTickStatuses fault).1.workflowSteps =
        db.workflowSteps.filter
          (fun st => !(jobIsReapable db minAge workReaperTickStatuses st.jobID))) ∧
    (∀ jid, jobIsReapable db minAge workReaperTickStatuses jid = true ↔
      ∃ job ∈ db.jobs, job.jobID = jid ∧
        (job.status = JobStatus.failed ∨ job.status = JobStatus.successful ∨
          job.status = JobStatus.canceled) ∧
        job.minutesSinceUpdate > minAge) ∧
    (∀ i ∈ db.workItems, jobIsReapable db minAge workReaperTickStatuses i.jobID = false →
      i ∈ (deleteTerminalWork db minAge workReaperTickStatuses fault).1.workItems) ∧
    (∀ dbe logs e,
      deleteTerminalWorkAttempt db minAge workReaperTickStatuses fault = (dbe, logs, some e) →
      deleteTerminalWork db minAge workReaperTickStatuses fault =
        (dbe, logs ++ ["Error attempting to delete terminal work items", e])) := by
  refine ⟨?_, jobIsReapable_tick_iff db minAge, ?_, ?_⟩
  · intro h4
    have hA := deleteTerminalWorkAttempt_noFault db minAge workReaperTickStatuses fault h4 hndI hndS
    obtain ⟨he, hjobs, hitems, hsteps⟩ := hA
    unfold deleteTerminalWork
    rcases hAeq : deleteTerminalWorkAttempt db minAge workReaperTickStatuses fault
      with ⟨dbf, logsf, ef⟩
    rw [hAeq] at he hjobs hitems hsteps
    simp only at he hjobs hitems hsteps
    subst he
    exact ⟨hjobs, hitems, hsteps⟩
  · intro i hi hfalse
    exact deleteTerminalWork_keeps_item db minAge workReaperTickStatuses fault hndI i hi hfalse
  · intro dbe logs e h
    exact deleteTerminalWork_catches db minAge workReaperTickStatuses fault dbe logs e h

/-- Witness for C8 at scenario S6: threshold 60 minutes, no fault; the items
and steps of the 120-minute-idle successful job are removed, those of the
equally idle running job remain. -/
theorem workReaper_deleteTerminalWork_spec_witness :
    (deleteTerminalWork s6Db 60 workReaperTickStatuses 9).1.workItems = [⟨2, "JR"⟩] ∧
    (deleteTerminalWork s6Db 60 workReaperTickStatuses 9).1.workflowSteps = [⟨12, "JR"⟩] ∧
    (⟨2, "JR"⟩ : WorkItemRecord) ∈ (deleteTerminalWork s6Db 60 workReaperTickStatuses 9).1.workItems := by
  have h := workReaper_deleteTerminalWork_spec s6Db 60 9 (by decide) (by decide)
  have h1 := (h.1 (by decide)).2.1
  have h2 := (h.1 (by decide)).2.2
  refine ⟨?_, ?_, ?_⟩
  · rw [h1]; decide
  · rw [h2]; decide
  · exact h.2.2.1 ⟨2, "JR"⟩ (by decide) (by decide)

end Harmony